import Mathlib

/-!
Verification of the bike-sharing dashboard script (app.py) against its
natural-language specification.

The script is a linear pandas/streamlit pipeline.  We embed it shallowly:

* a CSV row becomes `RawRow`; `load_data` maps the categorical integer codes
  through the fixed dictionaries `season_map`, `weather_map` and the
  working-day dictionary, and derives `month`/`year` from the parsed date
  (pandas `Series.map` sends keys absent from the dictionary to NaN, which we
  model as `none`);
* the sidebar filter block becomes `filterStage` (year equality filter when
  the selector is not "All", then `isin` on the season column);
* the metric row becomes `metricsOf` (pandas reductions on an empty series
  yield NaN, modelled as `none`);
* `pd.qcut(_, q := 3)` and the fallback `pd.cut(_, bins := 3,
  include_lowest := True)` are embedded over `ℚ` following the exact pandas
  semantics: linear-interpolation quantiles at positions `p * (n-1)`,
  bin-edge uniqueness check, `searchsorted(side = left)` bin assignment with
  the `include_lowest` adjustment, equal-width `linspace` edges with the
  0.1% endpoint adjustments, and the `ValueError` raised by `pd.cut` on an
  empty array;
* the whole script run becomes `runApp`, whose `Outcome` distinguishes the
  handled `FileNotFoundError` stop, an uncaught exception, and a completed
  render;
* the object-identity structure of the script (which dataframe object each
  pandas operation writes to) is made explicit in `interactionHeap`.
-/

/-- Calendar date as produced by `pd.to_datetime` on the `dteday` column. -/
structure Date where
  year : ℤ
  month : ℤ
  day : ℤ
deriving DecidableEq, Repr

/-- One raw CSV record of day.csv with the columns the script touches. -/
structure RawRow where
  dteday : Date
  season : ℤ
  weathersit : ℤ
  workingday : ℤ
  temp : ℚ
  hum : ℚ
  windspeed : ℚ
  casual : ℤ
  registered : ℤ
  cnt : ℤ
deriving DecidableEq, Repr

/-- The dictionary `season_map` of app.py; `Series.map` sends keys outside
the dictionary to NaN, hence the `Option`. -/
def season_map (c : ℤ) : Option String :=
  if c = 1 then some "Spring"
  else if c = 2 then some "Summer"
  else if c = 3 then some "Fall"
  else if c = 4 then some "Winter"
  else none

/-- The dictionary `weather_map` of app.py. -/
def weather_map (c : ℤ) : Option String :=
  if c = 1 then some "Clear"
  else if c = 2 then some "Mist/Cloudy"
  else if c = 3 then some "Light Rain/Snow"
  else if c = 4 then some "Heavy Rain/Snow"
  else none

/-- The working-day dictionary of app.py line 32. -/
def workingday_map (w : ℤ) : Option String :=
  if w = 0 then some "Akhir Pekan/Hari Libur"
  else if w = 1 then some "Hari Kerja"
  else none

/-- A record of the loaded dataframe after the transformations in
`load_data`. -/
structure Row where
  dteday : Date
  season : Option String
  weathersit : Option String
  month : ℤ
  year : ℤ
  workingday_label : Option String
  temp : ℚ
  hum : ℚ
  windspeed : ℚ
  casual : ℤ
  registered : ℤ
  cnt : ℤ
deriving DecidableEq, Repr

/-- Row-wise effect of `load_data`: the season/weather/working-day code
mappings and the `month`/`year` fields derived from the parsed date. -/
def loadRow (r : RawRow) : Row where
  dteday := r.dteday
  season := season_map r.season
  weathersit := weather_map r.weathersit
  month := r.dteday.month
  year := r.dteday.year
  workingday_label := workingday_map r.workingday
  temp := r.temp
  hum := r.hum
  windspeed := r.windspeed
  casual := r.casual
  registered := r.registered
  cnt := r.cnt

/-- `load_data` on an already-parsed CSV table. -/
def load_data (rows : List RawRow) : List Row :=
  rows.map loadRow

/-- The sidebar year selector: "All" or one concrete year. -/
inductive YearSel where
  | all : YearSel
  | year (y : ℤ) : YearSel
deriving DecidableEq, Repr

/-- `df["season"].isin(musim)` for one row: NaN (a season code outside 1-4)
is never a member. -/
def seasonIsIn (musim : List String) (r : Row) : Bool :=
  match r.season with
  | some s => musim.contains s
  | none => false

/-- The filter block of app.py lines 52-54: year equality filter when the
selector is not "All", then the season `isin` filter. -/
def filterStage (tahun : YearSel) (musim : List String) (df : List Row) : List Row :=
  let df1 :=
    match tahun with
    | .all => df
    | .year y => df.filter (fun r => r.year == y)
  df1.filter (seasonIsIn musim)

/-- Pandas `Series.mean`: NaN on an empty series. -/
def seriesMean (xs : List ℚ) : Option ℚ :=
  if xs.isEmpty then none else some (xs.sum / (xs.length : ℚ))

/-- Pandas `Series.max`: NaN on an empty series. -/
def seriesMax : List ℚ → Option ℚ
  | [] => none
  | x :: xs => some (xs.foldl max x)

/-- Pandas `Series.min`: NaN on an empty series. -/
def seriesMin : List ℚ → Option ℚ
  | [] => none
  | x :: xs => some (xs.foldl min x)

/-- The `cnt` column of a view, as rational numbers. -/
def cntColumn (view : List Row) : List ℚ :=
  view.map (fun r => (r.cnt : ℚ))

/-- The four scalar metrics of app.py lines 69-77. -/
structure Metrics where
  count : ℕ
  mean : Option ℚ
  max : Option ℚ
  min : Option ℚ
deriving DecidableEq, Repr

/-- The metrics panel: `len(df)`, `df["cnt"].mean()`, `.max()`, `.min()`. -/
def metricsOf (view : List Row) : Metrics where
  count := view.length
  mean := seriesMean (cntColumn view)
  max := seriesMax (cntColumn view)
  min := seriesMin (cntColumn view)

/-- Scatter chart data: one (x, cnt) point per row of the view. -/
def scatterChart (xsel : Row → ℚ) (view : List Row) : List (ℚ × ℤ) :=
  view.map (fun r => (xsel r, r.cnt))

/-- Box-plot data: (working-day label, cnt) per row. -/
def boxChart (view : List Row) : List (Option String × ℤ) :=
  view.map (fun r => (r.workingday_label, r.cnt))

/-- `df.groupby("month")["cnt"].mean()`: the distinct months in ascending
order, each with the mean cnt of its group. -/
def monthlyMean (view : List Row) : List (ℤ × ℚ) :=
  (((view.map (fun r => r.month)).dedup).insertionSort (· ≤ ·)).map
    (fun m =>
      let grp := view.filter (fun r => r.month == m)
      (m, (cntColumn grp).sum / (grp.length : ℚ)))

/-- The cluster labels of app.py, ascending. -/
def binLabels : List String := ["Rendah", "Sedang", "Tinggi"]

/-- Linear interpolation into a sorted list at fractional position `h`,
exactly as `numpy.percentile(interpolation = linear)` evaluates it. -/
def interpSorted (s : List ℚ) (h : ℚ) : ℚ :=
  let i : ℕ := (Int.floor h).toNat
  let lo := s.getD i 0
  let hi := s.getD (i + 1) lo
  lo + (h - (i : ℚ)) * (hi - lo)

/-- Pandas `Series.quantile(p)` with the default linear interpolation:
sort, then interpolate at position `p * (n - 1)`. -/
def quantile (xs : List ℚ) (p : ℚ) : ℚ :=
  interpSorted (xs.insertionSort (· ≤ ·)) (p * ((xs.length : ℚ) - 1))

/-- The candidate bin edges `pd.qcut(xs, 3)` computes: the quantiles at
`linspace(0, 1, 4)`. -/
def qcutBins (xs : List ℚ) : List ℚ :=
  [quantile xs 0, quantile xs (1/3), quantile xs (2/3), quantile xs 1]

/-- Pandas `_bins_to_cuts` bin index for right-closed bins with
`include_lowest`: `searchsorted(side = left)` on sorted edges is the number
of edges strictly below `x`; a value equal to the lowest edge is moved into
the first bin. -/
def assignIds (bins : List ℚ) (x : ℚ) : ℕ :=
  if bins.head? = some x then 1 else bins.countP (fun b => decide (b < x))

/-- Pandas `_bins_to_cuts` label assignment: index 0 or `len(bins)` means
no bin (NaN), otherwise the label of bin `ids`. -/
def assignBin (bins : List ℚ) (x : ℚ) : Option String :=
  if assignIds bins x = 0 ∨ assignIds bins x = bins.length then none
  else binLabels[assignIds bins x - 1]?

/-- `pd.qcut(xs, q := 3, labels)` : quantile bin edges, the uniqueness
check (`ValueError` when edges repeat; on an empty series all quantile
edges are equal, so this also covers the empty case), then bin
assignment. -/
def qcut3 (xs : List ℚ) : Except String (List (Option String)) :=
  let bins := qcutBins xs
  if bins.Nodup then .ok (xs.map (assignBin bins))
  else .error "Bin edges must be unique"

/-- Minimum of a list, pandas `nanmin` style. -/
def listMin : List ℚ → Option ℚ
  | [] => none
  | x :: xs => some (xs.foldl min x)

/-- Maximum of a list, pandas `nanmax` style. -/
def listMax : List ℚ → Option ℚ
  | [] => none
  | x :: xs => some (xs.foldl max x)

/-- Pandas endpoint adjustment for a degenerate range: the left endpoint is
moved down by 0.1% of its magnitude (by 0.001 when it is 0). -/
def adjLo (mn : ℚ) : ℚ :=
  if mn = 0 then -(1/1000) else mn - |mn| / 1000

/-- Pandas endpoint adjustment for a degenerate range: the right endpoint is
moved up by 0.1% of its magnitude (by 0.001 when it is 0). -/
def adjHi (mx : ℚ) : ℚ :=
  if mx = 0 then 1/1000 else mx + |mx| / 1000

/-- `numpy.linspace(a, b, 4)`. -/
def linspace4 (a b : ℚ) : List ℚ :=
  [a, a + (b - a) / 3, a + 2 * ((b - a) / 3), b]

/-- The bin edges `pd.cut(xs, bins := 3)` computes: `linspace(mn, mx, 4)`
with the pandas endpoint adjustments (both endpoints moved out by 0.1%
before binning when `mn == mx`, otherwise the lowest edge lowered by 0.1%
of the range afterwards). -/
def cutBins3 (xs : List ℚ) : List ℚ :=
  if (listMin xs).getD 0 = (listMax xs).getD 0 then
    linspace4 (adjLo ((listMin xs).getD 0)) (adjHi ((listMax xs).getD 0))
  else
    [(listMin xs).getD 0 -
       ((listMax xs).getD 0 - (listMin xs).getD 0) / 1000,
     (listMin xs).getD 0 +
       ((listMax xs).getD 0 - (listMin xs).getD 0) / 3,
     (listMin xs).getD 0 +
       2 * (((listMax xs).getD 0 - (listMin xs).getD 0) / 3),
     (listMax xs).getD 0]

/-- `pd.cut(xs, bins := 3, labels, include_lowest := True)`: raises
`ValueError("Cannot cut empty array")` on an empty series, otherwise
assigns equal-width bins. -/
def cut3 (xs : List ℚ) : Except String (List (Option String)) :=
  if xs.isEmpty then .error "Cannot cut empty array"
  else .ok (xs.map (assignBin (cutBins3 xs)))

/-- The clustering stage of app.py lines 151-160: `pd.qcut`, and on
`ValueError` the `pd.cut` fallback (whose own exceptions are uncaught). -/
def clusterLabels (xs : List ℚ) : Except String (List (Option String)) :=
  match qcut3 xs with
  | .ok ls => .ok ls
  | .error _ => cut3 xs

/-- The bin edges the clustering stage ends up using. -/
def clusterBins (xs : List ℚ) : List ℚ :=
  if (qcutBins xs).Nodup then qcutBins xs else cutBins3 xs

/-- The `cnt_cluster` column computed for a filtered view. -/
def clusterColumn (view : List Row) : Except String (List (Option String)) :=
  clusterLabels (cntColumn view)

/-- Ordinal rank of a cluster label: Rendah (Low) 0, Sedang (Medium) 1,
Tinggi (High) 2. -/
def labelRank : Option String → ℕ
  | some "Sedang" => 1
  | some "Tinggi" => 2
  | _ => 0

/-- `sns.countplot` data on the cluster column: days per cluster label. -/
def clusterCountChart (ls : List (Option String)) : List (String × ℕ) :=
  binLabels.map (fun l => (l, ls.count (some l)))

/-- The season labels in code order. -/
def seasonNames : List String := ["Spring", "Summer", "Fall", "Winter"]

/-- `sns.barplot(x = season, hue = cnt_cluster, y = cnt, ci = None)` data:
mean cnt per (season, cluster) group. -/
def seasonClusterChart (view : List Row) (ls : List (Option String)) :
    List ((String × String) × ℚ) :=
  (seasonNames.map (fun s => binLabels.map (fun l =>
    let grp := (view.zip ls).filter
      (fun p => p.1.season == some s && p.2 == some l)
    ((s, l), (grp.map (fun p => (p.1.cnt : ℚ))).sum / (grp.length : ℚ))))).flatten

/-- All six chart payloads of one script run. -/
structure Charts where
  scatterTemp : List (ℚ × ℤ)
  scatterHum : List (ℚ × ℤ)
  boxWorkingday : List (Option String × ℤ)
  monthlyTrend : List (ℤ × ℚ)
  clusterCounts : List (String × ℕ)
  seasonClusterMeans : List ((String × String) × ℚ)
deriving DecidableEq, Repr

/-- How one script run ends: the handled missing-file stop (`st.error` +
`st.stop`), an uncaught exception, or a completed render. -/
inductive Outcome where
  | halted (msg : String) : Outcome
  | crashed (msg : String) : Outcome
  | rendered (metrics : Metrics) (charts : Charts) : Outcome
deriving DecidableEq, Repr

/-- The message of app.py line 38. -/
def fileMissingMsg : String :=
  "File 'day.csv' tidak ditemukan. Pastikan file berada di folder yang sama dengan app.py."

/-- One full script run: the file read guarded by the
`except FileNotFoundError` handler, then filter, metrics, the four plain
charts, and the clustering block whose fallback `pd.cut` can itself raise
(uncaught, hence `crashed`). -/
def runApp (file : Option (List RawRow)) (tahun : YearSel) (musim : List String) :
    Outcome :=
  match file with
  | none => .halted fileMissingMsg
  | some raw =>
    let df_raw := load_data raw
    let df := df_raw
    let dfF := filterStage tahun musim df
    let m := metricsOf dfF
    let c1 := scatterChart (fun r => r.temp) dfF
    let c2 := scatterChart (fun r => r.hum) dfF
    let c3 := boxChart dfF
    let c4 := monthlyMean dfF
    match clusterColumn dfF with
    | .error e => .crashed e
    | .ok ls =>
      .rendered m ⟨c1, c2, c3, c4, clusterCountChart ls, seasonClusterChart dfF ls⟩

/-- A dataframe object: its rows and its optional `cnt_cluster` column. -/
abbrev Frame := List Row × Option (List (Option String))

/-- The object store of one interaction, making pandas object identity
explicit: object 0 is the cached master table returned by the loader;
`df_raw.copy()` allocates object 1; each boolean-indexing filter allocates
a fresh object; the `cnt_cluster` column assignment mutates the final
derived object in place (`List.set`), and on an uncaught fallback error the
script aborts with the store as is.  Returns the final store. -/
def interactionHeap (master : List Row) (tahun : YearSel) (musim : List String) :
    List Frame :=
  let heap0 : List Frame := [(master, none)]
  let heap1 := heap0 ++ [((heap0.getD 0 ([], none)).1, none)]
  let stage2 : List Frame × ℕ :=
    match tahun with
    | .all => (heap1, 1)
    | .year y =>
      (heap1 ++ [(((heap1.getD 1 ([], none)).1).filter (fun r => r.year == y), none)], 2)
  let heap2 := stage2.1
  let ix2 := stage2.2
  let heap3 := heap2 ++ [(((heap2.getD ix2 ([], none)).1).filter (seasonIsIn musim), none)]
  let ix3 := heap2.length
  match clusterColumn ((heap3.getD ix3 ([], none)).1) with
  | .ok ls => heap3.set ix3 ((heap3.getD ix3 ([], none)).1, some ls)
  | .error _ => heap3

/-- The year half of the specification's filter predicate: the selector is
"All" or the row's year equals the selector. -/
def specYearOk (tahun : YearSel) (r : Row) : Bool :=
  tahun == YearSel.all || tahun == YearSel.year r.year

/-- The season half of the specification's filter predicate: the row's
season is a member of the selected seasons. -/
def specSeasonOk (musim : List String) (r : Row) : Bool :=
  musim.any (fun s => r.season == some s)



/-- A 2011 spring working-day record used as concrete test data. -/
def rawRow2011 : RawRow where
  dteday := ⟨2011, 1, 1⟩
  season := 1
  weathersit := 1
  workingday := 1
  temp := 1/2
  hum := 1/2
  windspeed := 1/10
  casual := 30
  registered := 70
  cnt := 100

/-- A 2012 summer weekend record used as concrete test data. -/
def rawRow2012 : RawRow where
  dteday := ⟨2012, 7, 1⟩
  season := 2
  weathersit := 1
  workingday := 0
  temp := 3/5
  hum := 2/5
  windspeed := 1/10
  casual := 80
  registered := 120
  cnt := 200

/-- A two-record master table: one 2011 Spring day, one 2012 Summer day. -/
def sampleMaster : List RawRow := [rawRow2011, rawRow2012]

/-- A record whose season code 9 lies outside the 1-4 dictionary. -/
def rawRowBadSeason : RawRow := { rawRow2011 with season := 9 }

/-- A cnt column in which 9 of 10 values coincide. -/
def heavyColumn : List ℚ := [5, 5, 5, 5, 5, 5, 5, 5, 5, 1]

/-! ### Filter stage lemmas -/

lemma specYearOk_all (r : Row) : specYearOk YearSel.all r = true := by
  unfold specYearOk
  simp

lemma specYearOk_year (y : ℤ) (r : Row) : specYearOk (YearSel.year y) r = (r.year == y) := by
  unfold specYearOk
  rw [Bool.eq_iff_iff]
  simp only [Bool.or_eq_true, beq_iff_eq]
  constructor
  · rintro (h | h)
    · exact absurd h (by simp)
    · injection h with h2
      exact h2.symm
  · intro h
    right
    rw [h]

lemma seasonIsIn_eq_spec (musim : List String) (r : Row) :
    seasonIsIn musim r = specSeasonOk musim r := by
  unfold seasonIsIn specSeasonOk
  cases hs : r.season with
  | none => simp
  | some s =>
    induction musim with
    | nil => rfl
    | cons a as ih =>
      simp only [List.contains_cons, List.any_cons, ih]
      congr 1

lemma filterStage_eq_filter (tahun : YearSel) (musim : List String) (df : List Row) :
    filterStage tahun musim df =
      df.filter (fun r => specYearOk tahun r && specSeasonOk musim r) := by
  unfold filterStage
  cases tahun with
  | all =>
    apply List.filter_congr
    intro r hr
    rw [seasonIsIn_eq_spec, specYearOk_all, Bool.true_and]
  | year y =>
    simp only
    rw [List.filter_filter]
    apply List.filter_congr
    intro r hr
    rw [seasonIsIn_eq_spec, specYearOk_year, Bool.and_comm]

/-! ### Metrics lemmas -/

lemma foldl_min_le_init (l : List ℚ) (a : ℚ) : l.foldl min a ≤ a := by
  induction l generalizing a with
  | nil => simp
  | cons x xs ih => exact le_trans (ih (min a x)) (min_le_left a x)

lemma foldl_min_le_mem (l : List ℚ) (a : ℚ) : ∀ x ∈ l, l.foldl min a ≤ x := by
  induction l generalizing a with
  | nil => intro x hx; cases hx
  | cons y ys ih =>
    intro x hx
    rcases List.mem_cons.mp hx with rfl | h
    · exact le_trans (foldl_min_le_init ys (min a x)) (min_le_right a x)
    · exact ih (min a y) x h

lemma init_le_foldl_max (l : List ℚ) (a : ℚ) : a ≤ l.foldl max a := by
  induction l generalizing a with
  | nil => simp
  | cons x xs ih => exact le_trans (le_max_left a x) (ih (max a x))

lemma mem_le_foldl_max (l : List ℚ) (a : ℚ) : ∀ x ∈ l, x ≤ l.foldl max a := by
  induction l generalizing a with
  | nil => intro x hx; cases hx
  | cons y ys ih =>
    intro x hx
    rcases List.mem_cons.mp hx with rfl | h
    · exact le_trans (le_max_right a x) (init_le_foldl_max ys (max a x))
    · exact ih (max a y) x h

lemma listMin_le_mem (xs : List ℚ) (m : ℚ) (hm : listMin xs = some m) :
    ∀ x ∈ xs, m ≤ x := by
  cases xs with
  | nil => cases hm
  | cons a l =>
    intro x hx
    unfold listMin at hm
    injection hm with hm
    subst hm
    rcases List.mem_cons.mp hx with rfl | h
    · exact foldl_min_le_init l x
    · exact foldl_min_le_mem l a x h

lemma mem_le_listMax (xs : List ℚ) (m : ℚ) (hm : listMax xs = some m) :
    ∀ x ∈ xs, x ≤ m := by
  cases xs with
  | nil => cases hm
  | cons a l =>
    intro x hx
    unfold listMax at hm
    injection hm with hm
    subst hm
    rcases List.mem_cons.mp hx with rfl | h
    · exact init_le_foldl_max l x
    · exact mem_le_foldl_max l a x h

lemma sum_le_length_mul (l : List ℚ) (M : ℚ) (h : ∀ x ∈ l, x ≤ M) :
    l.sum ≤ (l.length : ℚ) * M := by
  induction l with
  | nil => simp
  | cons x xs ih =>
    have hx := h x (List.mem_cons_self x xs)
    have hxs := ih (fun y hy => h y (List.mem_cons_of_mem x hy))
    simp only [List.sum_cons, List.length_cons]
    push_cast
    nlinarith [hx, hxs]

lemma length_mul_le_sum (l : List ℚ) (m : ℚ) (h : ∀ x ∈ l, m ≤ x) :
    (l.length : ℚ) * m ≤ l.sum := by
  induction l with
  | nil => simp
  | cons x xs ih =>
    have hx := h x (List.mem_cons_self x xs)
    have hxs := ih (fun y hy => h y (List.mem_cons_of_mem x hy))
    simp only [List.sum_cons, List.length_cons]
    push_cast
    nlinarith [hx, hxs]

/-! ### Sorted-list and quantile lemmas -/

lemma getD_eq_getElem_of_lt (s : List ℚ) (i : ℕ) (d : ℚ) (h : i < s.length) :
    s.getD i d = s[i] := by
  simp [List.getD_eq_getElem?_getD, List.getElem?_eq_getElem h]

lemma sorted_getElem_le (s : List ℚ) (hs : s.Sorted (· ≤ ·)) (i j : ℕ)
    (hi : i < s.length) (hj : j < s.length) (hij : i ≤ j) : s[i] ≤ s[j] := by
  have h := hs.rel_get_of_le (a := ⟨i, hi⟩) (b := ⟨j, hj⟩) hij
  simpa using h

lemma sorted_head_le_mem (s : List ℚ) (hs : s.Sorted (· ≤ ·)) (x : ℚ) (hx : x ∈ s) :
    s.getD 0 0 ≤ x := by
  obtain ⟨k, hk, rfl⟩ := List.getElem_of_mem hx
  rw [getD_eq_getElem_of_lt s 0 0 (by omega)]
  exact sorted_getElem_le s hs 0 k (by omega) hk (Nat.zero_le k)

lemma sorted_mem_le_last (s : List ℚ) (hs : s.Sorted (· ≤ ·)) (x : ℚ) (hx : x ∈ s) :
    x ≤ s.getD (s.length - 1) 0 := by
  obtain ⟨k, hk, rfl⟩ := List.getElem_of_mem hx
  have hlast : s.length - 1 < s.length := by omega
  rw [getD_eq_getElem_of_lt s (s.length - 1) 0 hlast]
  exact sorted_getElem_le s hs k (s.length - 1) hk hlast (by omega)

lemma quantile_zero (xs : List ℚ) :
    quantile xs 0 = (xs.insertionSort (· ≤ ·)).getD 0 0 := by
  unfold quantile interpSorted
  simp

lemma quantile_one (xs : List ℚ) (hne : xs ≠ []) :
    quantile xs 1 =
      (xs.insertionSort (· ≤ ·)).getD ((xs.insertionSort (· ≤ ·)).length - 1) 0 := by
  have hn : 1 ≤ xs.length := List.length_pos.mpr hne
  have hlen : (xs.insertionSort (· ≤ ·)).length = xs.length :=
    List.length_insertionSort _ xs
  unfold quantile interpSorted
  have hcast : (1 : ℚ) * ((xs.length : ℚ) - 1) = ((xs.length - 1 : ℕ) : ℚ) := by
    rw [Nat.cast_sub hn]
    push_cast
    ring
  rw [hcast]
  simp only [Int.floor_natCast, Int.toNat_natCast, hlen]
  ring_nf

lemma quantile_zero_le_mem (xs : List ℚ) (x : ℚ) (hx : x ∈ xs) :
    quantile xs 0 ≤ x := by
  rw [quantile_zero]
  exact sorted_head_le_mem _ (List.sorted_insertionSort _ xs) x
    ((List.perm_insertionSort _ xs).mem_iff.mpr hx)

lemma mem_le_quantile_one (xs : List ℚ) (hne : xs ≠ []) (x : ℚ) (hx : x ∈ xs) :
    x ≤ quantile xs 1 := by
  rw [quantile_one xs hne]
  exact sorted_mem_le_last _ (List.sorted_insertionSort _ xs) x
    ((List.perm_insertionSort _ xs).mem_iff.mpr hx)

/-! ### Bin-edge lemmas -/

lemma adjLo_le (mn : ℚ) : adjLo mn ≤ mn := by
  unfold adjLo
  split
  · simp_all
  · have : 0 ≤ |mn| := abs_nonneg mn
    linarith

lemma le_adjHi (mx : ℚ) : mx ≤ adjHi mx := by
  unfold adjHi
  split
  · simp_all
  · have : 0 ≤ |mx| := abs_nonneg mx
    linarith

lemma listMin_cons_eq (xs : List ℚ) (hne : xs ≠ []) :
    listMin xs = some ((listMin xs).getD 0) := by
  cases xs with
  | nil => exact absurd rfl hne
  | cons a l => rfl

lemma listMax_cons_eq (xs : List ℚ) (hne : xs ≠ []) :
    listMax xs = some ((listMax xs).getD 0) := by
  cases xs with
  | nil => exact absurd rfl hne
  | cons a l => rfl

lemma cutBins3_facts (xs : List ℚ) (hne : xs ≠ []) :
    ∃ b0, (cutBins3 xs).head? = some b0 ∧ (∀ x ∈ xs, b0 ≤ x) ∧
      ∃ btop ∈ cutBins3 xs, ∀ x ∈ xs, x ≤ btop := by
  have hmin : ∀ x ∈ xs, (listMin xs).getD 0 ≤ x :=
    listMin_le_mem xs _ (listMin_cons_eq xs hne)
  have hmax : ∀ x ∈ xs, x ≤ (listMax xs).getD 0 :=
    mem_le_listMax xs _ (listMax_cons_eq xs hne)
  unfold cutBins3
  split
  case isTrue heq =>
    refine ⟨adjLo ((listMin xs).getD 0), rfl, ?lo, adjHi ((listMax xs).getD 0), ?mem, ?hi⟩
    case lo =>
      intro x hx
      exact le_trans (adjLo_le _) (hmin x hx)
    case mem => simp [linspace4]
    case hi =>
      intro x hx
      exact le_trans (hmax x hx) (le_adjHi _)
  case isFalse hne2 =>
    have hle : (listMin xs).getD 0 ≤ (listMax xs).getD 0 := by
      obtain ⟨x, hx⟩ := List.exists_mem_of_ne_nil xs hne
      exact le_trans (hmin x hx) (hmax x hx)
    refine ⟨(listMin xs).getD 0 -
        ((listMax xs).getD 0 - (listMin xs).getD 0) / 1000, rfl, ?lo,
      (listMax xs).getD 0, ?mem, hmax⟩
    case lo =>
      intro x hx
      have := hmin x hx
      linarith
    case mem => simp

lemma qcutBins_facts (xs : List ℚ) (hne : xs ≠ []) :
    ∃ b0, (qcutBins xs).head? = some b0 ∧ (∀ x ∈ xs, b0 ≤ x) ∧
      ∃ btop ∈ qcutBins xs, ∀ x ∈ xs, x ≤ btop := by
  refine ⟨quantile xs 0, rfl, fun x hx => quantile_zero_le_mem xs x hx,
    quantile xs 1, ?mem, fun x hx => mem_le_quantile_one xs hne x hx⟩
  simp [qcutBins]

lemma clusterBins_facts (xs : List ℚ) (hne : xs ≠ []) :
    ∃ b0, (clusterBins xs).head? = some b0 ∧ (∀ x ∈ xs, b0 ≤ x) ∧
      ∃ btop ∈ clusterBins xs, ∀ x ∈ xs, x ≤ btop := by
  unfold clusterBins
  split
  · exact qcutBins_facts xs hne
  · exact cutBins3_facts xs hne

lemma clusterBins_length (xs : List ℚ) : (clusterBins xs).length = 4 := by
  unfold clusterBins qcutBins cutBins3
  split
  · rfl
  · split
    · rfl
    · rfl

/-! ### Bin-assignment lemmas -/

lemma head_mem_of_head?_eq (bins : List ℚ) (b0 : ℚ) (hh : bins.head? = some b0) :
    b0 ∈ bins := by
  cases bins with
  | nil => cases hh
  | cons a l =>
    injection hh with hh
    subst hh
    exact List.mem_cons_self _ _

lemma assignIds_bounds (bins : List ℚ) (x b0 : ℚ) (hh : bins.head? = some b0)
    (hlen : bins.length = 4) (hb0 : b0 ≤ x) (htop : ∃ b ∈ bins, x ≤ b) :
    1 ≤ assignIds bins x ∧ assignIds bins x ≤ 3 := by
  unfold assignIds
  split
  case isTrue h => omega
  case isFalse h =>
    have hb0x : b0 < x := by
      rcases lt_or_eq_of_le hb0 with hlt | heq
      · exact hlt
      · exact absurd (by rw [hh, heq]) h
    constructor
    · have hpos : 0 < bins.countP (fun b => decide (b < x)) :=
        List.countP_pos_iff.mpr ⟨b0, head_mem_of_head?_eq bins b0 hh, by simpa using hb0x⟩
      omega
    · by_contra hgt
      have h4 : bins.countP (fun b => decide (b < x)) = bins.length := by
        have := List.countP_le_length (p := fun b => decide (b < x)) (l := bins)
        omega
      have hall := List.countP_eq_length.mp h4
      obtain ⟨b, hbmem, hxb⟩ := htop
      have hbx : b < x := by simpa using hall b hbmem
      exact absurd hxb (not_le.mpr hbx)

lemma assignBin_eq_of_bounds (bins : List ℚ) (x : ℚ) (hlen : bins.length = 4)
    (h1 : 1 ≤ assignIds bins x) (h3 : assignIds bins x ≤ 3) :
    assignBin bins x = binLabels[assignIds bins x - 1]? := by
  unfold assignBin
  rw [if_neg]
  omega

lemma assignBin_valid (bins : List ℚ) (x : ℚ) (hlen : bins.length = 4)
    (h1 : 1 ≤ assignIds bins x) (h3 : assignIds bins x ≤ 3) :
    ∃ l, assignBin bins x = some l ∧ l ∈ binLabels ∧
      labelRank (assignBin bins x) = assignIds bins x - 1 := by
  rw [assignBin_eq_of_bounds bins x hlen h1 h3]
  interval_cases h : assignIds bins x
  · exact ⟨"Rendah", rfl, by simp [binLabels], rfl⟩
  · exact ⟨"Sedang", rfl, by simp [binLabels], rfl⟩
  · exact ⟨"Tinggi", rfl, by simp [binLabels], rfl⟩

lemma assignIds_mono (bins : List ℚ) (b0 x y : ℚ) (hh : bins.head? = some b0)
    (hx : b0 ≤ x) (hxy : x ≤ y) : assignIds bins x ≤ assignIds bins y := by
  unfold assignIds
  by_cases hxb : bins.head? = some x
  · rw [if_pos hxb]
    by_cases hyb : bins.head? = some y
    · rw [if_pos hyb]
    · rw [if_neg hyb]
      have hb0x : b0 = x := by
        rw [hxb] at hh
        injection hh with h2
        exact h2.symm
      have hb0y : b0 < y := by
        rcases lt_or_eq_of_le (le_trans hx hxy) with hlt | heq
        · exact hlt
        · exact absurd (by rw [hh, heq]) hyb
      have hpos : 0 < bins.countP (fun b => decide (b < y)) :=
        List.countP_pos_iff.mpr ⟨b0, head_mem_of_head?_eq bins b0 hh, by simpa using hb0y⟩
      omega
  · rw [if_neg hxb]
    by_cases hyb : bins.head? = some y
    · exfalso
      have hb0y : b0 = y := by
        rw [hyb] at hh
        injection hh with h2
        exact h2.symm
      have : x = b0 := le_antisymm (hb0y ▸ hxy) hx
      exact hxb (by rw [hh, this])
    · rw [if_neg hyb]
      apply List.countP_mono_left
      intro b hb hbx
      have : b < x := by simpa using hbx
      simpa using lt_of_lt_of_le this hxy

lemma clusterLabels_ok (xs : List ℚ) (hne : xs ≠ []) :
    clusterLabels xs = .ok (xs.map (assignBin (clusterBins xs))) := by
  by_cases hd : (qcutBins xs).Nodup
  · simp [clusterLabels, qcut3, clusterBins, hd]
  · simp [clusterLabels, qcut3, clusterBins, cut3, hd, hne]

/-! ### Totality and monotonicity of the cluster assignment -/

lemma cutBins3_length (xs : List ℚ) : (cutBins3 xs).length = 4 := by
  unfold cutBins3
  split
  · rfl
  · rfl

lemma clusterAssign_valid (xs : List ℚ) (hne : xs ≠ []) (x : ℚ) (hx : x ∈ xs) :
    ∃ l, assignBin (clusterBins xs) x = some l ∧ l ∈ binLabels := by
  obtain ⟨b0, hh, hlo, btop, hmem, hhi⟩ := clusterBins_facts xs hne
  have hb := assignIds_bounds (clusterBins xs) x b0 hh (clusterBins_length xs)
    (hlo x hx) ⟨btop, hmem, hhi x hx⟩
  obtain ⟨l, hl, hlmem, _⟩ := assignBin_valid (clusterBins xs) x
    (clusterBins_length xs) hb.1 hb.2
  exact ⟨l, hl, hlmem⟩

lemma clusterAssign_rank_mono (xs : List ℚ) (hne : xs ≠ []) (x y : ℚ)
    (hx : x ∈ xs) (hy : y ∈ xs) (hxy : x ≤ y) :
    labelRank (assignBin (clusterBins xs) x) ≤
      labelRank (assignBin (clusterBins xs) y) := by
  obtain ⟨b0, hh, hlo, btop, hmem, hhi⟩ := clusterBins_facts xs hne
  have hbx := assignIds_bounds (clusterBins xs) x b0 hh (clusterBins_length xs)
    (hlo x hx) ⟨btop, hmem, hhi x hx⟩
  have hby := assignIds_bounds (clusterBins xs) y b0 hh (clusterBins_length xs)
    (hlo y hy) ⟨btop, hmem, hhi y hy⟩
  obtain ⟨lx, hlx, _, hrx⟩ := assignBin_valid (clusterBins xs) x
    (clusterBins_length xs) hbx.1 hbx.2
  obtain ⟨ly, hly, _, hry⟩ := assignBin_valid (clusterBins xs) y
    (clusterBins_length xs) hby.1 hby.2
  have hmono := assignIds_mono (clusterBins xs) b0 x y hh (hlo x hx) hxy
  omega

lemma cut3_ok (xs : List ℚ) (hne : xs ≠ []) :
    cut3 xs = .ok (xs.map (assignBin (cutBins3 xs))) := by
  simp [cut3, hne]

lemma cut3_assign_valid (xs : List ℚ) (hne : xs ≠ []) (x : ℚ) (hx : x ∈ xs) :
    ∃ l, assignBin (cutBins3 xs) x = some l ∧ l ∈ binLabels := by
  obtain ⟨b0, hh, hlo, btop, hmem, hhi⟩ := cutBins3_facts xs hne
  have hb := assignIds_bounds (cutBins3 xs) x b0 hh (cutBins3_length xs)
    (hlo x hx) ⟨btop, hmem, hhi x hx⟩
  obtain ⟨l, hl, hlmem, _⟩ := assignBin_valid (cutBins3 xs) x
    (cutBins3_length xs) hb.1 hb.2
  exact ⟨l, hl, hlmem⟩

/-! ### Why heavily duplicated data makes quantile binning fail -/

lemma sorted_count_le_of_getElem_lt (s : List ℚ) (hs : s.Sorted (· ≤ ·)) (v : ℚ)
    (j : ℕ) (hj : j < s.length) (hv : s[j] < v) :
    s.count v ≤ s.length - (j + 1) := by
  have hcount : s.count v = (s.take (j+1)).count v + (s.drop (j+1)).count v := by
    conv_lhs => rw [← List.take_append_drop (j+1) s]
    exact List.count_append _ _ _
  have htake : (s.take (j+1)).count v = 0 := by
    rw [List.count_eq_zero]
    intro hmem
    obtain ⟨i, hi, hieq⟩ := List.getElem_of_mem hmem
    have hi2 : i ≤ j := by
      simp only [List.length_take] at hi
      omega
    rw [List.getElem_take] at hieq
    have hle := sorted_getElem_le s hs i j (by omega) hj hi2
    rw [hieq] at hle
    exact absurd hv (not_lt.mpr hle)
  have hdrop : (s.drop (j+1)).count v ≤ s.length - (j+1) := by
    have h1 := List.count_le_length v (s.drop (j+1))
    simpa using h1
  omega

lemma sorted_count_le_of_lt_getElem (s : List ℚ) (hs : s.Sorted (· ≤ ·)) (v : ℚ)
    (j : ℕ) (hj : j < s.length) (hv : v < s[j]) :
    s.count v ≤ j := by
  have hcount : s.count v = (s.take j).count v + (s.drop j).count v := by
    conv_lhs => rw [← List.take_append_drop j s]
    exact List.count_append _ _ _
  have hdrop : (s.drop j).count v = 0 := by
    rw [List.count_eq_zero]
    intro hmem
    obtain ⟨i, hi, hieq⟩ := List.getElem_of_mem hmem
    rw [List.getElem_drop] at hieq
    have hji : j ≤ j + i := by omega
    have hlen : j + i < s.length := by
      simp only [List.length_drop] at hi
      omega
    have hle := sorted_getElem_le s hs j (j + i) (by omega) hlen hji
    rw [hieq] at hle
    exact absurd hv (not_lt.mpr hle)
  have htake : (s.take j).count v ≤ j := by
    have h1 := List.count_le_length v (s.take j)
    simp only [List.length_take] at h1
    omega
  omega

lemma sorted_getD_eq_of_heavy (s : List ℚ) (hs : s.Sorted (· ≤ ·)) (v : ℚ)
    (hne : s ≠ []) (hc : 9 * s.length ≤ 10 * s.count v) :
    ∀ j, (s.length - 1) / 3 ≤ j →
      j ≤ min ((2 * (s.length - 1)) / 3 + 1) (s.length - 1) → s.getD j 0 = v := by
  have hn1 : 1 ≤ s.length := List.length_pos.mpr hne
  have hcn : s.count v ≤ s.length := List.count_le_length v s
  have hidx1 : (s.length - 1) / 3 < s.length := by omega
  have hidx2 : min ((2 * (s.length - 1)) / 3 + 1) (s.length - 1) < s.length := by omega
  have hA : s[(s.length - 1) / 3] = v := by
    rcases lt_trichotomy (s[(s.length - 1) / 3]) v with hlt | heq | hgt
    · have := sorted_count_le_of_getElem_lt s hs v ((s.length - 1) / 3) (by omega) hlt
      omega
    · exact heq
    · have := sorted_count_le_of_lt_getElem s hs v ((s.length - 1) / 3) (by omega) hgt
      omega
  have hB : s[min ((2 * (s.length - 1)) / 3 + 1) (s.length - 1)] = v := by
    rcases lt_trichotomy
      (s[min ((2 * (s.length - 1)) / 3 + 1) (s.length - 1)]) v with hlt | heq | hgt
    · have := sorted_count_le_of_getElem_lt s hs v
        (min ((2 * (s.length - 1)) / 3 + 1) (s.length - 1)) (by omega) hlt
      omega
    · exact heq
    · have := sorted_count_le_of_lt_getElem s hs v
        (min ((2 * (s.length - 1)) / 3 + 1) (s.length - 1)) (by omega) hgt
      omega
  intro j hj1 hj2
  have hjn : j < s.length := by omega
  rw [getD_eq_getElem_of_lt s j 0 hjn]
  have h1 := sorted_getElem_le s hs ((s.length - 1) / 3) j (by omega) hjn hj1
  have h2 := sorted_getElem_le s hs j
    (min ((2 * (s.length - 1)) / 3 + 1) (s.length - 1)) hjn (by omega) hj2
  rw [hA] at h1
  rw [hB] at h2
  exact le_antisymm h2 h1

lemma floor_third (n : ℕ) (hn : 1 ≤ n) :
    (Int.floor ((1/3 : ℚ) * ((n : ℚ) - 1))).toNat = (n - 1) / 3 := by
  have h1 : (1/3 : ℚ) * ((n : ℚ) - 1) = (((n - 1 : ℕ) : ℚ) / ((3 : ℕ) : ℚ)) := by
    rw [Nat.cast_sub hn]
    push_cast
    ring
  rw [h1, Rat.floor_natCast_div_natCast]
  omega

lemma floor_two_thirds (n : ℕ) (hn : 1 ≤ n) :
    (Int.floor ((2/3 : ℚ) * ((n : ℚ) - 1))).toNat = (2 * (n - 1)) / 3 := by
  have h1 : (2/3 : ℚ) * ((n : ℚ) - 1) = (((2 * (n - 1) : ℕ) : ℚ) / ((3 : ℕ) : ℚ)) := by
    rw [Nat.cast_mul, Nat.cast_sub hn]
    push_cast
    ring
  rw [h1, Rat.floor_natCast_div_natCast]
  omega

lemma interpSorted_eq_const (s : List ℚ) (h : ℚ) (v : ℚ)
    (hlo : s.getD (Int.floor h).toNat 0 = v)
    (hhi : s.getD ((Int.floor h).toNat + 1) v = v) :
    interpSorted s h = v := by
  simp only [interpSorted]
  rw [hlo, hhi]
  ring

lemma quantile_third_of_heavy (xs : List ℚ) (hne : xs ≠ []) (v : ℚ)
    (hc : 9 * xs.length ≤ 10 * xs.count v) :
    quantile xs (1/3) = v ∧ quantile xs (2/3) = v := by
  have hn : 1 ≤ xs.length := List.length_pos.mpr hne
  have hperm := List.perm_insertionSort (· ≤ ·) xs
  have hslen : (xs.insertionSort (· ≤ ·)).length = xs.length :=
    List.length_insertionSort _ xs
  have hsne : xs.insertionSort (· ≤ ·) ≠ [] := by
    intro hempty
    rw [hempty] at hslen
    simp at hslen
    omega
  have hscount : (xs.insertionSort (· ≤ ·)).count v = xs.count v := hperm.count_eq v
  have hval := sorted_getD_eq_of_heavy (xs.insertionSort (· ≤ ·))
    (List.sorted_insertionSort _ xs) v hsne (by rw [hslen, hscount]; exact hc)
  constructor
  · unfold quantile
    apply interpSorted_eq_const
    · rw [floor_third xs.length hn]
      apply hval
      · rw [hslen]
      · rw [hslen]
        omega
    · rw [floor_third xs.length hn]
      by_cases hcase : (xs.length - 1) / 3 + 1 < xs.length
      · have heq := hval ((xs.length - 1) / 3 + 1) (by rw [hslen]; omega)
          (by rw [hslen]; omega)
        rw [List.getD_eq_getElem?_getD] at heq ⊢
        rw [List.getElem?_eq_getElem (by omega : (xs.length - 1) / 3 + 1 <
          (xs.insertionSort (· ≤ ·)).length)] at heq ⊢
        simp at heq ⊢
        exact heq
      · apply List.getD_eq_default
        omega
  · unfold quantile
    apply interpSorted_eq_const
    · rw [floor_two_thirds xs.length hn]
      apply hval
      · rw [hslen]
        omega
      · rw [hslen]
        omega
    · rw [floor_two_thirds xs.length hn]
      by_cases hcase : (2 * (xs.length - 1)) / 3 + 1 < xs.length
      · have heq := hval ((2 * (xs.length - 1)) / 3 + 1) (by rw [hslen]; omega)
          (by rw [hslen]; omega)
        rw [List.getD_eq_getElem?_getD] at heq ⊢
        rw [List.getElem?_eq_getElem (by omega : (2 * (xs.length - 1)) / 3 + 1 <
          (xs.insertionSort (· ≤ ·)).length)] at heq ⊢
        simp at heq ⊢
        exact heq
      · apply List.getD_eq_default
        omega

lemma qcut3_error_of_heavy (xs : List ℚ) (hne : xs ≠ []) (v : ℚ)
    (hc : 9 * xs.length ≤ 10 * xs.count v) :
    qcut3 xs = .error "Bin edges must be unique" := by
  obtain ⟨h13, h23⟩ := quantile_third_of_heavy xs hne v hc
  unfold qcut3
  rw [if_neg]
  intro hnd
  unfold qcutBins at hnd
  rw [h13, h23] at hnd
  simp at hnd

lemma clusterLabels_eq_cut3_of_qcut3_error (xs : List ℚ) (e : String)
    (herr : qcut3 xs = .error e) : clusterLabels xs = cut3 xs := by
  unfold clusterLabels
  rw [herr]

/-! ### Metrics aggregate bounds -/

lemma series_min_mean_max (xs : List ℚ) (hne : xs ≠ []) :
    ∃ mn me mx, seriesMin xs = some mn ∧ seriesMean xs = some me ∧
      seriesMax xs = some mx ∧ mn ≤ me ∧ me ≤ mx := by
  cases xs with
  | nil => exact absurd rfl hne
  | cons a l =>
    have hpos : (0 : ℚ) < ((a :: l).length : ℚ) := by
      have : 0 < (a :: l).length := Nat.succ_pos l.length
      exact_mod_cast this
    refine ⟨l.foldl min a, (a :: l).sum / (((a :: l).length : ℕ) : ℚ), l.foldl max a,
      rfl, by simp [seriesMean], rfl, ?lo, ?hi⟩
    case lo =>
      have hb : ∀ x ∈ a :: l, l.foldl min a ≤ x := listMin_le_mem (a :: l) _ rfl
      have hs := length_mul_le_sum (a :: l) _ hb
      rw [le_div_iff₀ hpos]
      linarith
    case hi =>
      have hb : ∀ x ∈ a :: l, x ≤ l.foldl max a := mem_le_listMax (a :: l) _ rfl
      have hs := sum_le_length_mul (a :: l) _ hb
      rw [div_le_iff₀ hpos]
      linarith

/-! ### Concrete evaluation lemmas for the empty column -/

lemma quantile_nil (p : ℚ) : quantile [] p = 0 := by
  simp [quantile, interpSorted]

lemma qcut3_nil : qcut3 [] = Except.error "Bin edges must be unique" := by
  simp [qcut3, qcutBins, quantile_nil]

lemma cut3_nil : cut3 [] = Except.error "Cannot cut empty array" := by
  simp [cut3]

lemma clusterLabels_nil : clusterLabels [] = Except.error "Cannot cut empty array" := by
  rw [clusterLabels, qcut3_nil, cut3_nil]

/-! ### Claim theorems -/

/-- C1: for every loaded table, year selector and set of selected seasons,
the filter stage output is exactly the rows satisfying (selector is "All"
or the row's year equals the selector) and (the row's season is a member of
the selected seasons), and, being a `List.filter`, it is a subsequence of
the source table, preserving relative order. -/
theorem filter_stage_correct (tahun : YearSel) (musim : List String) (df : List Row) :
    filterStage tahun musim df =
      df.filter (fun r => specYearOk tahun r && specSeasonOk musim r) ∧
    (filterStage tahun musim df).Sublist df := by
  refine ⟨filterStage_eq_filter tahun musim df, ?sub⟩
  rw [filterStage_eq_filter tahun musim df]
  exact List.filter_sublist df

/-- C5: the metrics panel's count is the number of rows of the filtered
view; on a non-empty view the min, mean and max of the cnt column exist
and satisfy min ≤ mean ≤ max; on the empty view the count is 0 and the
three aggregates are NaN (`none`), with no failure. -/
theorem metrics_panel_correct (view : List Row) :
    (metricsOf view).count = view.length ∧
    (view ≠ [] →
      ∃ mn me mx, (metricsOf view).min = some mn ∧
        (metricsOf view).mean = some me ∧ (metricsOf view).max = some mx ∧
        mn ≤ me ∧ me ≤ mx) ∧
    (view = [] →
      (metricsOf view).count = 0 ∧ (metricsOf view).mean = none ∧
      (metricsOf view).max = none ∧ (metricsOf view).min = none) := by
  refine ⟨rfl, ?ne, ?e⟩
  case ne =>
    intro hne
    have hcne : cntColumn view ≠ [] := by
      intro h
      exact hne (List.map_eq_nil_iff.mp h)
    obtain ⟨mn, me, mx, h1, h2, h3, h4, h5⟩ := series_min_mean_max (cntColumn view) hcne
    exact ⟨mn, me, mx, h1, h2, h3, h4, h5⟩
  case e =>
    intro he
    subst he
    exact ⟨rfl, rfl, rfl, rfl⟩

/-- Witness for C5 at a concrete one-row view. -/
theorem metrics_panel_correct_witness :
    ([loadRow rawRow2011] ≠ []) ∧
    (∃ mn me mx, (metricsOf [loadRow rawRow2011]).min = some mn ∧
      (metricsOf [loadRow rawRow2011]).mean = some me ∧
      (metricsOf [loadRow rawRow2011]).max = some mx ∧
      mn ≤ me ∧ me ≤ mx) :=
  ⟨by simp, (metrics_panel_correct [loadRow rawRow2011]).2.1 (by simp)⟩

/-- C6: when the input file is absent, the run ends in the handled
`st.error` + `st.stop` outcome carrying the exact user-facing message, for
every filter selection; it is neither an uncaught crash nor a render (so no
metrics or charts are produced). -/
theorem missing_file_halts (tahun : YearSel) (musim : List String) :
    runApp none tahun musim = Outcome.halted fileMissingMsg ∧
    (∀ e, runApp none tahun musim ≠ Outcome.crashed e) ∧
    (∀ m c, runApp none tahun musim ≠ Outcome.rendered m c) := by
  refine ⟨rfl, ?c, ?r⟩
  case c =>
    intro e
    simp [runApp]
  case r =>
    intro m c
    simp [runApp]

/-- C7: the loader's season and weather dictionaries agree with the fixed
lookup tables on codes 1-4, and every code outside 1-4 maps to the
deterministic missing value `none` (pandas `Series.map` NaN); the mapping
is a total function, so it never raises. -/
theorem category_maps_correct :
    (season_map 1 = some "Spring" ∧ season_map 2 = some "Summer" ∧
      season_map 3 = some "Fall" ∧ season_map 4 = some "Winter") ∧
    (weather_map 1 = some "Clear" ∧ weather_map 2 = some "Mist/Cloudy" ∧
      weather_map 3 = some "Light Rain/Snow" ∧
      weather_map 4 = some "Heavy Rain/Snow") ∧
    (∀ c : ℤ, c < 1 ∨ 4 < c → season_map c = none ∧ weather_map c = none) := by
  refine ⟨⟨rfl, rfl, rfl, rfl⟩, ⟨rfl, rfl, rfl, rfl⟩, ?out⟩
  intro c hc
  have h1 : ¬ c = 1 := by omega
  have h2 : ¬ c = 2 := by omega
  have h3 : ¬ c = 3 := by omega
  have h4 : ¬ c = 4 := by omega
  simp [season_map, weather_map, h1, h2, h3, h4]

/-- Witness for C7 at the out-of-range code 9. -/
theorem category_maps_correct_witness :
    ((9 : ℤ) < 1 ∨ (4 : ℤ) < 9) ∧ season_map 9 = none ∧ weather_map 9 = none :=
  ⟨by decide, category_maps_correct.2.2 9 (by decide)⟩

/-- C8: on a 0/1 working-day flag the loader derives the working-day label
"Hari Kerja" for 1 and the weekend/holiday label "Akhir Pekan/Hari Libur"
for 0, so the label is always one of exactly those two values. -/
theorem workingday_label_correct (r : RawRow)
    (h : r.workingday = 0 ∨ r.workingday = 1) :
    (loadRow r).workingday_label =
      some (if r.workingday = 1 then "Hari Kerja" else "Akhir Pekan/Hari Libur") ∧
    ((loadRow r).workingday_label = some "Hari Kerja" ∨
      (loadRow r).workingday_label = some "Akhir Pekan/Hari Libur") := by
  rcases h with h | h
  · constructor
    · simp [loadRow, workingday_map, h]
    · right
      simp [loadRow, workingday_map, h]
  · constructor
    · simp [loadRow, workingday_map, h]
    · left
      simp [loadRow, workingday_map, h]

/-- Witness for C8 at the concrete working-day record. -/
theorem workingday_label_correct_witness :
    (rawRow2011.workingday = 0 ∨ rawRow2011.workingday = 1) ∧
    ((loadRow rawRow2011).workingday_label =
      some (if rawRow2011.workingday = 1 then "Hari Kerja"
        else "Akhir Pekan/Hari Libur") ∧
    ((loadRow rawRow2011).workingday_label = some "Hari Kerja" ∨
      (loadRow rawRow2011).workingday_label = some "Akhir Pekan/Hari Libur")) :=
  ⟨by decide, workingday_label_correct rawRow2011 (by decide)⟩

/-- C10: a raw record whose season code lies outside 1-4 is loaded with a
missing (`none`) season, and such a loaded row is never a member of any
filter stage output, whatever year selector, season selection and source
table are used, because `isin` is false on a missing season. -/
theorem out_of_range_season_excluded (r : RawRow)
    (hc : r.season < 1 ∨ 4 < r.season) :
    (loadRow r).season = none ∧
    ∀ tahun musim df, loadRow r ∉ filterStage tahun musim df := by
  have h1 : ¬ r.season = 1 := by omega
  have h2 : ¬ r.season = 2 := by omega
  have h3 : ¬ r.season = 3 := by omega
  have h4 : ¬ r.season = 4 := by omega
  have hs : season_map r.season = none := by
    simp [season_map, h1, h2, h3, h4]
  constructor
  · simp [loadRow, hs]
  · intro tahun musim df hmem
    unfold filterStage at hmem
    obtain ⟨-, hpred⟩ := List.mem_filter.mp hmem
    unfold seasonIsIn at hpred
    rw [show (loadRow r).season = none by simp [loadRow, hs]] at hpred
    simp at hpred

/-- Witness for C10 at the concrete bad-season record. -/
theorem out_of_range_season_excluded_witness :
    (rawRowBadSeason.season < 1 ∨ 4 < rawRowBadSeason.season) ∧
    (loadRow rawRowBadSeason).season = none ∧
    loadRow rawRowBadSeason ∉
      filterStage YearSel.all ["Spring", "Summer", "Fall", "Winter"]
        (load_data [rawRowBadSeason]) :=
  ⟨by decide,
    (out_of_range_season_excluded rawRowBadSeason (by decide)).1,
    (out_of_range_season_excluded rawRowBadSeason (by decide)).2
      YearSel.all ["Spring", "Summer", "Fall", "Winter"]
      (load_data [rawRowBadSeason])⟩

/-- C2 (code bug): a realizable filter selection (year 2011 with only
"Summer" selected, on a table that has a 2011 Spring day and a 2012 Summer
day) yields an empty filtered view; the metrics count is 0 as the claim
demands, but the run does not complete: `pd.qcut` raises on the empty cnt
column and the fallback `pd.cut` itself raises the uncaught
`ValueError("Cannot cut empty array")`, so the cluster charts never
render. -/
theorem empty_view_cluster_crash :
    filterStage (YearSel.year 2011) ["Summer"] (load_data sampleMaster) = [] ∧
    (metricsOf (filterStage (YearSel.year 2011) ["Summer"]
      (load_data sampleMaster))).count = 0 ∧
    runApp (some sampleMaster) (YearSel.year 2011) ["Summer"] =
      Outcome.crashed "Cannot cut empty array" := by
  have hfilter : filterStage (YearSel.year 2011) ["Summer"]
      (load_data sampleMaster) = [] := by rfl
  refine ⟨hfilter, by rw [hfilter]; rfl, ?run⟩
  simp only [runApp, hfilter, clusterColumn, cntColumn, List.map_nil,
    clusterLabels_nil]

/-- C3 counterexample: the empty filtered view is a view on which quantile
binning is infeasible (`pd.qcut` raises), yet the clustering stage does not
recover: the fallback `pd.cut` raises its own error, which propagates. -/
theorem cluster_error_propagates_on_empty_view :
    qcut3 ([] : List ℚ) = Except.error "Bin edges must be unique" ∧
    clusterLabels ([] : List ℚ) = Except.error "Cannot cut empty array" :=
  ⟨qcut3_nil, clusterLabels_nil⟩

/-- C3 amended: for every NON-EMPTY filtered view on which quantile binning
into 3 bins raises, the clustering stage recovers by equal-width binning
with 3 bins spanning min..max of the view (lowest edge effectively
inclusive) with the same labels and propagates no error — every row gets a
label from the label set; and on a non-empty view in which at least 90% of
the rows share one cnt value, quantile binning does raise. -/
theorem cluster_fallback_on_nonempty (xs : List ℚ) (hne : xs ≠ []) :
    ((∃ e, qcut3 xs = Except.error e) →
      clusterLabels xs = cut3 xs ∧
      ∃ ls, cut3 xs = Except.ok ls ∧ ls.length = xs.length ∧
        ∀ ol ∈ ls, ∃ l, ol = some l ∧ l ∈ binLabels) ∧
    (∀ v : ℚ, 9 * xs.length ≤ 10 * xs.count v →
      ∃ e, qcut3 xs = Except.error e) := by
  constructor
  · rintro ⟨e, he⟩
    refine ⟨clusterLabels_eq_cut3_of_qcut3_error xs e he,
      xs.map (assignBin (cutBins3 xs)), cut3_ok xs hne, by simp, ?val⟩
    intro ol hol
    obtain ⟨x, hx, rfl⟩ := List.mem_map.mp hol
    obtain ⟨l, hl, hlmem⟩ := cut3_assign_valid xs hne x hx
    exact ⟨l, hl, hlmem⟩
  · intro v hv
    exact ⟨"Bin edges must be unique", qcut3_error_of_heavy xs hne v hv⟩

/-- Witness for C3 at a ten-element column, nine of whose values coincide. -/
theorem cluster_fallback_on_nonempty_witness :
    (heavyColumn ≠ []) ∧
    (9 * heavyColumn.length ≤ 10 * heavyColumn.count 5) ∧
    (∃ e, qcut3 heavyColumn = Except.error e) ∧
    (clusterLabels heavyColumn = cut3 heavyColumn ∧
      ∃ ls, cut3 heavyColumn = Except.ok ls ∧ ls.length = heavyColumn.length ∧
        ∀ ol ∈ ls, ∃ l, ol = some l ∧ l ∈ binLabels) := by
  have hne : heavyColumn ≠ [] := by simp [heavyColumn]
  have hcnt : 9 * heavyColumn.length ≤ 10 * heavyColumn.count 5 := by decide
  have herr := (cluster_fallback_on_nonempty heavyColumn hne).2 5 hcnt
  exact ⟨hne, hcnt, herr, (cluster_fallback_on_nonempty heavyColumn hne).1 herr⟩

/-- C4: on any non-empty filtered view the clustering stage succeeds and
assigns every row exactly one label, drawn from Rendah/Sedang/Tinggi
(Low/Medium/High), and the assignment is monotone: a row with strictly
smaller cnt gets a label of less-or-equal rank. -/
theorem clustering_total_and_monotone (view : List Row) (hne : view ≠ []) :
    clusterColumn view =
      Except.ok ((cntColumn view).map (assignBin (clusterBins (cntColumn view)))) ∧
    ((cntColumn view).map (assignBin (clusterBins (cntColumn view)))).length =
      view.length ∧
    (∀ r ∈ view, ∃ l,
      assignBin (clusterBins (cntColumn view)) ((r.cnt : ℚ)) = some l ∧
      l ∈ binLabels) ∧
    (∀ a ∈ view, ∀ b ∈ view, (a.cnt : ℚ) < (b.cnt : ℚ) →
      labelRank (assignBin (clusterBins (cntColumn view)) ((a.cnt : ℚ))) ≤
        labelRank (assignBin (clusterBins (cntColumn view)) ((b.cnt : ℚ)))) := by
  have hcne : cntColumn view ≠ [] := by
    intro h
    exact hne (List.map_eq_nil_iff.mp h)
  refine ⟨?ok, by simp [cntColumn], ?val, ?mono⟩
  case ok => exact clusterLabels_ok (cntColumn view) hcne
  case val =>
    intro r hr
    exact clusterAssign_valid (cntColumn view) hcne _
      (List.mem_map_of_mem (fun r => ((r.cnt : ℚ))) hr)
  case mono =>
    intro a ha b hb hab
    exact clusterAssign_rank_mono (cntColumn view) hcne _ _
      (List.mem_map_of_mem (fun r => ((r.cnt : ℚ))) ha)
      (List.mem_map_of_mem (fun r => ((r.cnt : ℚ))) hb)
      (le_of_lt hab)

/-- Witness for C4 at a concrete two-row view. -/
theorem clustering_total_and_monotone_witness :
    (load_data sampleMaster ≠ []) ∧
    (clusterColumn (load_data sampleMaster) =
      Except.ok ((cntColumn (load_data sampleMaster)).map
        (assignBin (clusterBins (cntColumn (load_data sampleMaster))))) ∧
    ((cntColumn (load_data sampleMaster)).map
      (assignBin (clusterBins (cntColumn (load_data sampleMaster))))).length =
      (load_data sampleMaster).length ∧
    (∀ r ∈ load_data sampleMaster, ∃ l,
      assignBin (clusterBins (cntColumn (load_data sampleMaster)))
        ((r.cnt : ℚ)) = some l ∧ l ∈ binLabels) ∧
    (∀ a ∈ load_data sampleMaster, ∀ b ∈ load_data sampleMaster,
      (a.cnt : ℚ) < (b.cnt : ℚ) →
      labelRank (assignBin (clusterBins (cntColumn (load_data sampleMaster)))
        ((a.cnt : ℚ))) ≤
        labelRank (assignBin (clusterBins (cntColumn (load_data sampleMaster)))
          ((b.cnt : ℚ))))) :=
  ⟨by simp [load_data, sampleMaster],
    clustering_total_and_monotone (load_data sampleMaster)
      (by simp [load_data, sampleMaster])⟩

/-- C9: one whole interaction leaves the cached master table (heap object
0) unchanged: the year/season filters allocate fresh dataframe objects from
the copy and the `cnt_cluster` assignment mutates only the final derived
object, so the loader's cached table is never mutated in place. -/
theorem master_table_not_mutated (master : List Row) (tahun : YearSel)
    (musim : List String) :
    (interactionHeap master tahun musim).head? = some (master, none) := by
  unfold interactionHeap
  cases tahun with
  | all =>
    simp only [List.getD_eq_getElem?_getD]
    split
    · rfl
    · rfl
  | year y =>
    simp only [List.getD_eq_getElem?_getD]
    split
    · rfl
    · rfl
